import Mathlib

/-!
Shallow embedding of the agent-multitool demo (src/tools.py and src/main.py).

The repository is a single-threaded conversational agent loop: a message
history, a registry of five tools (web search, Yahoo-Finance search,
Wikipedia lookup, append-to-file, code execution with a persistent
environment), a dispatcher `execute_tool_call`, and an orchestration loop
in `main` that feeds tool results back to the model.

Modelling conventions:
- Python runtime values are the inductive `Value`; dictionaries are
  association lists (first binding wins, as Python dictionaries have unique
  keys).
- Python exceptions are `PyErr`; code that catches exceptions is modelled
  with explicit `Except` plumbing.  Only `Exception`-derived errors are
  modelled (the code's `except Exception` handlers); `BaseException`s such
  as KeyboardInterrupt and non-termination are outside the embedding.
- The external collaborators (DuckDuckGo, Wikipedia, the Python `exec`
  interpreter for arbitrary source text, the Ollama backend) are oracle
  fields of a `World` record threaded through the tool bodies; the file
  system touched by `save_text_to_file` and the persistent code-execution
  environment are explicit `World` state.
- The program text passed to `code_exec` is embedded as a small statement
  AST (`Stmt`); parsing arbitrary Python source into it is an oracle.
-/

namespace Agent

/-- A Python runtime value, as far as the repository manipulates them:
`None`, booleans, integers, strings, module objects (the `pd`/`plt`
seeds of the execution environment), lists and dictionaries. -/
inductive Value where
  | none
  | bool (b : Bool)
  | int (n : Int)
  | str (s : String)
  | module (m : String)
  | list (xs : List Value)
  | dict (xs : List (Value × Value))

mutual

/-- Structural equality of values, modelling Python `==` on this fragment. -/
def Value.beq : Value → Value → Bool
  | .none, .none => true
  | .bool a, .bool b => a == b
  | .int a, .int b => a == b
  | .str a, .str b => a == b
  | .module a, .module b => a == b
  | .list a, .list b => beqValueList a b
  | .dict a, .dict b => beqValuePairs a b
  | _, _ => false

def beqValueList : List Value → List Value → Bool
  | [], [] => true
  | a :: as, b :: bs => a.beq b && beqValueList as bs
  | _, _ => false

def beqValuePairs : List (Value × Value) → List (Value × Value) → Bool
  | [], [] => true
  | (k, v) :: as, (l, w) :: bs => k.beq l && v.beq w && beqValuePairs as bs
  | _, _ => false

end

instance : BEq Value := ⟨Value.beq⟩

mutual

/-- Python `repr` on the embedded values (used by `str` on containers). -/
def Value.pyRepr : Value → String
  | .none => "None"
  | .bool true => "True"
  | .bool false => "False"
  | .int n => toString n
  | .str s => "\x27" ++ s ++ "\x27"
  | .module m => "<module \x27" ++ m ++ "\x27>"
  | .list xs => "[" ++ pyReprList xs ++ "]"
  | .dict xs => "\x7b" ++ pyReprPairs xs ++ "\x7d"

def pyReprList : List Value → String
  | [] => ""
  | [v] => v.pyRepr
  | v :: rest => v.pyRepr ++ ", " ++ pyReprList rest

def pyReprPairs : List (Value × Value) → String
  | [] => ""
  | [(k, v)] => k.pyRepr ++ ": " ++ v.pyRepr
  | (k, v) :: rest => k.pyRepr ++ ": " ++ v.pyRepr ++ ", " ++ pyReprPairs rest

end

/-- Python `str` on the embedded values (strings print bare, everything
else through `repr`); this is what f-string interpolation applies. -/
def Value.pyStr : Value → String
  | .str s => s
  | v => v.pyRepr

/-- The Python type name, as it appears in `TypeError` messages. -/
def Value.typeName : Value → String
  | .none => "NoneType"
  | .bool _ => "bool"
  | .int _ => "int"
  | .str _ => "str"
  | .module _ => "module"
  | .list _ => "list"
  | .dict _ => "dict"

/-- Whether the value is hashable in Python (lists and dictionaries are
not; they raise `TypeError` when used as a dictionary-lookup key). -/
def Value.hashable : Value → Bool
  | .list _ => false
  | .dict _ => false
  | _ => true

/-- A raised Python exception, as far as the dispatcher distinguishes
them: `KeyError` (the only class caught by the malformed-call guard),
`TypeError`, and other `Exception`s carrying a message. -/
inductive PyErr where
  | keyError (k : Value)
  | typeError (msg : String)
  | exc (msg : String)

/-- Association-list lookup underlying dictionary access. -/
def dictLookup (d : List (Value × Value)) (k : Value) : Option Value :=
  match d with
  | [] => Option.none
  | (k', v) :: rest => if k' == k then some v else dictLookup rest k

/-- Python subscription `v[k]`: on a dictionary, `KeyError` when the key is
absent and `TypeError` when the key is unhashable; on any non-dictionary
value of this fragment, `TypeError` (none of them accepts a string key). -/
def subscript (v k : Value) : Except PyErr Value :=
  match v with
  | .dict d =>
    if k.hashable then
      match dictLookup d k with
      | some r => .ok r
      | Option.none => .error (.keyError k)
    else .error (.typeError ("unhashable type: \x27" ++ k.typeName ++ "\x27"))
  | other => .error (.typeError (other.typeName ++ " is not subscriptable with a string key"))

/-! ## tools.py: the persistent code-execution environment and `code_exec` -/

/-- The `_EXEC_GLOBALS` dictionary: a mutable mapping from variable names
to values, threaded explicitly through the embedding. -/
def ExecEnv := List (String × Value)

/-- Lookup of a variable in the execution environment. -/
def envGet (env : ExecEnv) (x : String) : Option Value :=
  match env with
  | [] => Option.none
  | (y, v) :: rest => if y = x then some v else envGet rest x

/-- Python dictionary assignment `env[x] = v`: update in place if the key
exists, otherwise append a new binding. -/
def envSet (env : ExecEnv) (x : String) (v : Value) : ExecEnv :=
  match env with
  | [] => [(x, v)]
  | (y, w) :: rest => if y = x then (y, v) :: rest else (y, w) :: envSet rest x v

/-- `_ensure_exec_env` (tools.py lines 17-26): if the environment is empty
(its falsy state), seed it with the `pd` and `plt` modules imported at the
top of tools.py.  The `try`/`except ImportError` around the seeding cannot
fire here since those module-level imports already succeeded. -/
def _ensure_exec_env (env : ExecEnv) : ExecEnv :=
  if env.isEmpty then
    [("pd", Value.module "pandas"), ("plt", Value.module "matplotlib.pyplot")]
  else env

/-- Expressions of the embedded fragment of Python executed by `exec`:
literals and variable references. -/
inductive Expr where
  | lit (v : Value)
  | var (x : String)

/-- Statements of the embedded fragment: assignment, `print`, and an
expression that raises an exception with a given message. -/
inductive Stmt where
  | assign (x : String) (e : Expr)
  | printE (e : Expr)
  | raiseExc (msg : String)

/-- Expression evaluation; an undefined variable raises `NameError`. -/
def evalExpr (env : ExecEnv) : Expr → Except String Value
  | .lit v => .ok v
  | .var x =>
    match envGet env x with
    | some v => .ok v
    | Option.none => .error ("name \x27" ++ x ++ "\x27 is not defined")

/-- Running a statement list in the shared environment, accumulating the
captured standard output.  Returns the environment as it stands when
execution stops, the output, and the exception (if any) that stopped it:
side effects performed before a raise persist, exactly as with
`exec(code, _EXEC_GLOBALS, _EXEC_GLOBALS)`. -/
def runStmts : List Stmt → ExecEnv → String → ExecEnv × String × Option String
  | [], env, out => (env, out, Option.none)
  | s :: rest, env, out =>
    match s with
    | .assign x e =>
      match evalExpr env e with
      | .ok v => runStmts rest (envSet env x v) out
      | .error m => (env, out, some m)
    | .printE e =>
      match evalExpr env e with
      | .ok v => runStmts rest env (out ++ v.pyStr ++ "\n")
      | .error m => (env, out, some m)
    | .raiseExc m => (env, out, some m)

/-- Stand-in for `traceback.format_exc()`: the actual frames are
runtime-dependent diagnostics, modelled as a fixed marker string. -/
def tracebackText : String := "Traceback (most recent call last): ..."

/-- `code_exec` (tools.py lines 81-100): ensure the persistent environment
exists, execute the program against it with stdout redirected into a
buffer, catch any exception and print its message and a trace into the
buffer, and return the buffer contents together with the (mutated)
environment.  The program text is embedded as a `Stmt` AST, so the
source-text sanitation pass `_sanitize_path_literals` (a best-effort
rewrite of backslashes inside string literals, itself guarded by a
`try`/`except` falling back to the unmodified text) has no counterpart
here: it happens before parsing, which the embedding treats as external. -/
def code_exec (prog : List Stmt) (env : ExecEnv) : String × ExecEnv :=
  let env0 := _ensure_exec_env env
  match runStmts prog env0 "" with
  | (env1, out, Option.none) => (out, env1)
  | (env1, out, some e) =>
    (out ++ "Error: " ++ e ++ "\n" ++ tracebackText ++ "\n", env1)

/-! ## tools.py: `save_text_to_file` over an explicit file system -/

/-- The file system fragment the repository touches: file name to current
contents. -/
def Files := List (String × String)

/-- Contents of a file, if it exists. -/
def fileLookup (fs : Files) (name : String) : Option String :=
  match fs with
  | [] => Option.none
  | (n, c) :: rest => if n = name then some c else fileLookup rest name

/-- Opening a file in append mode creates it (empty) when absent. -/
def ensureFile (fs : Files) (name : String) : Files :=
  match fs with
  | [] => [(name, "")]
  | (n, c) :: rest => if n = name then (n, c) :: rest else (n, c) :: ensureFile rest name

/-- Appending data to a file (which is guaranteed to exist). -/
def fileAppend (fs : Files) (name data : String) : Files :=
  match fs with
  | [] => [(name, data)]
  | (n, c) :: rest => if n = name then (n, c ++ data) :: rest else (n, c) :: fileAppend rest name data

/-- `save_text_to_file` (tools.py lines 72-79): `open(filename, "a")`
creates the file when absent and positions at the end, `f.write(data)`
appends, and the `with` block closes the handle on every path; the
confirmation string interpolates the file name. -/
def save_text_to_file (fs : Files) (data : String)
    (filename : String := "research_output.txt") : Files × String :=
  (fileAppend (ensureFile fs filename) filename data,
   "Data successfully saved to " ++ filename)

/-! ## tools.py: tool descriptors and registry -/

/-- One entry of `TOOL_SPECS` (tools.py lines 106-196): the advertised
name, description, list of required parameter names, and the parameter
properties (name and description; every parameter has type `string`). -/
structure ToolSpec where
  name : String
  description : String
  required : List String
  properties : List (String × String)

/-- `TOOL_SPECS`: the five advertised tool descriptors, verbatim. -/
def TOOL_SPECS : List ToolSpec :=
  [⟨"search_web", "Buscar en la web (noticias) para obtener información actual.",
    ["query"], [("query", "tópico o consulta a buscar en la web")]⟩,
   ⟨"search_yf", "Buscar noticias financieras (sólo Yahoo Finance).",
    ["query"], [("query", "tópico financiero a buscar")]⟩,
   ⟨"wikipedia_lookup", "Consulta Wikipedia para obtener resúmenes de artículos.",
    ["query"], [("query", "tema a buscar en Wikipedia")]⟩,
   ⟨"save_text_to_file", "Guarda texto en un archivo en el servidor.",
    ["data"], [("data", "texto a guardar"), ("filename", "nombre de archivo (opcional)")]⟩,
   ⟨"code_exec", "Ejecuta código Python y devuelve la salida de consola.",
    ["code"], [("code", "código Python a ejecutar")]⟩]

/-- The required-parameter list a tool's schema declares, by tool name. -/
def specRequired (name : String) : List String :=
  match TOOL_SPECS.find? (fun t => t.name = name) with
  | some t => t.required
  | Option.none => []

/-- Tags for the five callables registered in `TOOL_FUNCS`. -/
inductive ToolName where
  | search_web
  | search_yf
  | wikipedia_lookup
  | save_text_to_file
  | code_exec
deriving DecidableEq

/-- `TOOL_FUNCS` (tools.py lines 199-205): the name-to-callable routing
table. -/
def TOOL_FUNCS : List (String × ToolName) :=
  [("search_web", .search_web),
   ("search_yf", .search_yf),
   ("wikipedia_lookup", .wikipedia_lookup),
   ("save_text_to_file", .save_text_to_file),
   ("code_exec", .code_exec)]

/-- The Python signature of each tool implementation: parameter names in
order, with the default value where one exists.  (These coincide with the
schema's required lists: only `save_text_to_file` has an optional
parameter, `filename`.) -/
def toolParams : ToolName → List (String × Option Value)
  | .search_web => [("query", Option.none)]
  | .search_yf => [("query", Option.none)]
  | .wikipedia_lookup => [("query", Option.none)]
  | .save_text_to_file =>
    [("data", Option.none), ("filename", some (.str "research_output.txt"))]
  | .code_exec => [("code", Option.none)]

/-- Binding of the parameter list against the argument dictionary, once
the dictionary shape has been checked: each parameter takes the supplied
value or its default, and a parameter with neither raises `TypeError`. -/
def bindParams (d : List (Value × Value)) :
    List (String × Option Value) → Except String (List (String × Value))
  | [] => .ok []
  | (n, dflt) :: rest =>
    match dictLookup d (.str n) with
    | some v => (bindParams d rest).map (fun tail => (n, v) :: tail)
    | Option.none =>
      match dflt with
      | some v => (bindParams d rest).map (fun tail => (n, v) :: tail)
      | Option.none => .error ("missing 1 required positional argument: \x27" ++ n ++ "\x27")

/-- The semantics of the call `func(**args)` up to entering the body:
`args` must be a mapping, its keys must be strings, no key may be
unexpected, and every parameter without a default must be supplied.  Any
violation raises `TypeError` before the body runs. -/
def bindKwargs (params : List (String × Option Value)) (args : Value) :
    Except String (List (String × Value)) :=
  match args with
  | .dict d =>
    if d.all (fun p => match p.1 with | .str _ => true | _ => false) then
      if d.all (fun p => params.any (fun q => Value.str q.1 == p.1)) then
        bindParams d params
      else .error "got an unexpected keyword argument"
    else .error "keywords must be strings"
  | other => .error ("argument after ** must be a mapping, not " ++ other.typeName)

/-- The mutable and external state the tool bodies touch: the file system,
the persistent code-execution environment, and oracles for the external
collaborators — the DuckDuckGo news search (shared by `search_web` and
`search_yf`), the Wikipedia wrapper, and the parser turning Python source
text (after the sanitation pass) into the embedded `Stmt` AST.  An oracle
returning `.error m` models the provider raising an exception with
message `m`. -/
structure World where
  files : Files
  execEnv : ExecEnv
  search : Value → Except String String
  wiki : Value → Except String String
  parseCode : String → List Stmt

/-- The bound value of a parameter (binding guarantees presence). -/
def boundGet (bound : List (String × Value)) (n : String) : Value :=
  match bound with
  | [] => .none
  | (m, v) :: rest => if m = n then v else boundGet rest n

/-- The body of each tool implementation (tools.py lines 49-100), entered
after binding succeeded.  `search_web` passes the query to the news
search; `search_yf` narrows it with the fixed site-scoping prefix (an
f-string, hence `str()` of the argument); `wikipedia_lookup` queries the
wrapper; `save_text_to_file` opens in append mode (creating the file even
when the subsequent write of a non-string raises `TypeError`) and appends;
`code_exec` parses and runs the program against the persistent
environment, never raising (its own `try`/`except` turns exceptions into
captured output, and `exec` of a non-string raises `TypeError` inside that
`try`). -/
def runToolBody (w : World) : ToolName → List (String × Value) → Except String String × World
  | .search_web, bound => (w.search (boundGet bound "query"), w)
  | .search_yf, bound =>
    (w.search (.str ("site:finance.yahoo.com " ++ (boundGet bound "query").pyStr)), w)
  | .wikipedia_lookup, bound => (w.wiki (boundGet bound "query"), w)
  | .save_text_to_file, bound =>
    match boundGet bound "filename" with
    | .str fn =>
      match boundGet bound "data" with
      | .str d =>
        let r := save_text_to_file w.files d fn
        (.ok r.2, { w with files := r.1 })
      | other =>
        (.error ("write() argument must be str, not " ++ other.typeName),
         { w with files := ensureFile w.files fn })
    | other =>
      (.error ("expected str, bytes or os.PathLike object, not " ++ other.typeName), w)
  | .code_exec, bound =>
    match boundGet bound "code" with
    | .str s =>
      let r := code_exec (w.parseCode s) w.execEnv
      (.ok r.1, { w with execEnv := r.2 })
    | other =>
      (.ok ("Error: exec() arg 1 must be a string, bytes or code object, not "
            ++ other.typeName ++ "\n" ++ tracebackText ++ "\n"),
       { w with execEnv := _ensure_exec_env w.execEnv })

/-! ## main.py: system prompt and message history -/

/-- `build_tools_text` (main.py lines 68-76): one `- name: description`
line per descriptor.  The guard `"function" in t and isinstance(...)` is
vacuous on the structured `TOOL_SPECS`, whose entries all carry a
function record. -/
def build_tools_text (specs : List ToolSpec) : String :=
  String.intercalate "\n" (specs.map (fun t => "- " ++ t.name ++ ": " ++ t.description))

/-- `TOOLS_TEXT` (main.py line 79). -/
def TOOLS_TEXT : String := build_tools_text TOOL_SPECS

/-- `SYSTEM_PROMPT` (main.py lines 80-85). -/
def SYSTEM_PROMPT : String :=
  "Eres un asistente experto con acceso a herramientas para buscar información actual y ejecutar código Python.\n"
  ++ "Decide con criterio cuándo usar herramientas. Si no es necesario, responde directamente y en español.\n\n"
  ++ "Available tools:\n" ++ TOOLS_TEXT ++ "\n"

/-- One entry of the message history: role, text content, and (for tool
messages) the correlation identifier. -/
structure Message where
  role : String
  content : String
  tool_call_id : Option String
deriving DecidableEq

/-- The system message the history starts from (main.py line 134). -/
def systemMessage : Message := ⟨"system", SYSTEM_PROMPT, Option.none⟩

/-- The user message appended for a (stripped) input line. -/
def userMessage (input : String) : Message := ⟨"user", input, Option.none⟩

/-- The assistant message appended for a final answer. -/
def assistantMessage (text : String) : Message := ⟨"assistant", text, Option.none⟩

/-- The tool message appended for one tool result (main.py lines
160-164); the correlation identifier is the fixed placeholder. -/
def toolMessage (output : String) : Message := ⟨"tool", output, some "dummy_id"⟩

/-! ## main.py: `execute_tool_call` -/

/-- The fixed malformed-call error string (main.py line 104). -/
def malformedCallMsg : String :=
  "[ERROR] tool_call mal formada: falta \x27name\x27 o \x27arguments\x27."

/-- The no-implementation error string (main.py line 108), interpolating
`str` of the requested name. -/
def noImplMsg (name : Value) : String :=
  "[ERROR] No hay implementación para la herramienta \x27" ++ name.pyStr ++ "\x27."

/-- The caught-exception error string (main.py line 116), interpolating
the tool name, the exception message and the formatted trace. -/
def toolErrMsg (name : Value) (e : String) : String :=
  "[ERROR ejecutando " ++ name.pyStr ++ "] " ++ e ++ "\n" ++ tracebackText

/-- The `try` block of main.py lines 100-102: extract
`call["function"]["name"]` and `call["function"]["arguments"]`. -/
def getNameArgs (call : Value) : Except PyErr (Value × Value) := do
  let f ← subscript call (.str "function")
  let name ← subscript f (.str "name")
  let args ← subscript f (.str "arguments")
  pure (name, args)

/-- `TOOL_FUNCS.get(name)` (main.py line 106): `TypeError` when the name
is unhashable, otherwise the registered callable or nothing. -/
def toolFuncsGet (name : Value) : Except PyErr (Option ToolName) :=
  if name.hashable then
    .ok ((TOOL_FUNCS.find? (fun p => Value.str p.1 == name)).map (fun p => p.2))
  else
    .error (.typeError ("unhashable type: \x27" ++ name.typeName ++ "\x27"))

/-- The outcome of `execute_tool_call`: the returned string or the
escaping exception, the state after the call, and — as a ghost observable
for the dispatch claims — which tool body, if any, was actually entered. -/
structure ToolOutcome where
  result : Except PyErr String
  world : World
  invoked : Option ToolName

/-- `execute_tool_call` (main.py lines 98-116).  The first `try` catches
only `KeyError` and returns the fixed malformed-call string; the registry
miss returns the no-implementation string; the second `try` wraps the
call `func(**args)` — both a binding failure and an exception inside the
body are caught by its `except Exception` and formatted into the
tool-error string.  (Tool results are strings already, so the final
`str(result)` coercion is the identity.)  Exceptions raised outside the
two `try` blocks — a `TypeError` from subscripting a non-dictionary
`function` value or from an unhashable name — escape to the caller. -/
def execute_tool_call (w : World) (call : Value) : ToolOutcome :=
  match getNameArgs call with
  | .error (.keyError _) => ⟨.ok malformedCallMsg, w, Option.none⟩
  | .error e => ⟨.error e, w, Option.none⟩
  | .ok (name, args) =>
    match toolFuncsGet name with
    | .error e => ⟨.error e, w, Option.none⟩
    | .ok Option.none => ⟨.ok (noImplMsg name), w, Option.none⟩
    | .ok (some t) =>
      match bindKwargs (toolParams t) args with
      | .error m => ⟨.ok (toolErrMsg name m), w, Option.none⟩
      | .ok bound =>
        match runToolBody w t bound with
        | (.error m, w') => ⟨.ok (toolErrMsg name m), w', some t⟩
        | (.ok s, w') => ⟨.ok s, w', some t⟩

/-! ## main.py: the orchestration loop -/

/-- The model's next message, as the loop reads it off the backend
response: `response.get("message", {}).get("content", "")` and
`response.get("message", {}).get("tool_calls", [])` (absent fields
defaulting to empty).  The tool-call requests are raw values, not
guaranteed well-formed. -/
structure ModelResponse where
  content : String
  tool_calls : List Value

/-- How a turn of the inner loop ended: with a printed answer, with the
no-answer indicator, aborted by an exception escaping to the outer
`except` (which prints a trace and ends the session), or stuck because
the scripted backend had no further response (in reality `call_agent`
re-raises the backend failure, likewise ending the session). -/
inductive TurnOutcome where
  | answered (text : String)
  | noAnswer
  | aborted (e : PyErr)
  | noResponse

/-- The observable result of running the inner loop: final state, message
history, lines printed for the user, number of model calls made, and how
the turn ended. -/
structure TurnResult where
  world : World
  messages : List Message
  printed : List String
  modelCalls : Nat
  outcome : TurnOutcome

/-- The `for call in tool_calls` loop (main.py lines 157-164): dispatch
each request in order, appending its result as a tool message.  If a
dispatch raises, the loop stops there — messages appended for earlier
calls remain, nothing is appended for the failing one, and the exception
propagates. -/
def dispatchAll (w : World) (msgs : List Message) :
    List Value → Except (World × List Message × PyErr) (World × List Message)
  | [] => .ok (w, msgs)
  | c :: cs =>
    let o := execute_tool_call w c
    match o.result with
    | .ok s => dispatchAll o.world (msgs ++ [toolMessage s]) cs
    | .error e => .error (o.world, msgs, e)

/-- The inner `while True` loop of `main` (main.py lines 148-178), run
against a script of backend responses (each consumed response is one
`call_agent` model call).  A response with tool calls dispatches them all
and loops; a response without tool calls prints and appends the answer —
or prints the no-answer indicator without appending — and breaks. -/
def runTurn (w : World) (msgs : List Message) : List ModelResponse → TurnResult
  | [] => ⟨w, msgs, [], 0, .noResponse⟩
  | r :: rest =>
    match r.tool_calls with
    | [] =>
      if r.content = "" then ⟨w, msgs, ["(sin respuesta del modelo)"], 1, .noAnswer⟩
      else ⟨w, msgs ++ [assistantMessage r.content], [r.content], 1, .answered r.content⟩
    | c :: cs =>
      match dispatchAll w msgs (c :: cs) with
      | .ok (w', msgs') =>
        let inner := runTurn w' msgs' rest
        ⟨inner.world, inner.messages, inner.printed, inner.modelCalls + 1, inner.outcome⟩
      | .error (w', msgs', e) => ⟨w', msgs', [], 1, .aborted e⟩

/-- One outer-loop iteration's inputs: the user's line and the backend
responses scripted for the turn. -/
structure Turn where
  input : String
  script : List ModelResponse

/-- The outer `while True` loop of `main` (main.py lines 136-186): strip
the input line; an empty line or an exit keyword breaks; otherwise append
the user message and run the inner loop.  A turn aborted by an escaped
exception, or left without a backend response, ends the session (the
outer `except` path); otherwise the next turn proceeds on the grown
history. -/
def runSession (w : World) (msgs : List Message) : List Turn → World × List Message
  | [] => (w, msgs)
  | t :: rest =>
    let inp := t.input.trim
    if inp = "" ∨ inp.toLower = "quit" ∨ inp.toLower = "exit" then (w, msgs)
    else
      let r := runTurn w (msgs ++ [userMessage inp]) t.script
      match r.outcome with
      | .answered _ => runSession r.world r.messages rest
      | .noAnswer => runSession r.world r.messages rest
      | .aborted _ => (r.world, r.messages)
      | .noResponse => (r.world, r.messages)

/-- The history `main` starts a session from (main.py line 134). -/
def initialMessages : List Message := [systemMessage]

/-! ## Shapes of tool-call requests, for the dispatch claims -/

/-- A malformed tool-call request in the code's sense: the request
dictionary lacks `function`, or its `function` dictionary lacks `name` or
`arguments` — exactly the shapes whose extraction raises `KeyError`. -/
def missingNameOrArgs (call : Value) : Prop :=
  ∃ d, call = Value.dict d ∧
    (dictLookup d (.str "function") = Option.none ∨
     ∃ f, dictLookup d (.str "function") = some (.dict f) ∧
       (dictLookup f (.str "name") = Option.none ∨
        dictLookup f (.str "arguments") = Option.none))

/-- A request whose name and arguments extract but whose name is not a
registered tool. -/
def namesUnknownTool (call : Value) : Prop :=
  ∃ n a, getNameArgs call = .ok (n, a) ∧ toolFuncsGet n = .ok Option.none

/-- A request that reaches a registered tool's body, which then raises an
exception. -/
def raisesInsideTool (w : World) (call : Value) : Prop :=
  ∃ n a t bound m, getNameArgs call = .ok (n, a) ∧
    toolFuncsGet n = .ok (some t) ∧
    bindKwargs (toolParams t) a = .ok bound ∧
    (runToolBody w t bound).1 = .error m

/-- The three kinds of tool dispatch failure the error-handling design
names: malformed call, unknown tool, exception inside the tool. -/
def dispatchFails (w : World) (call : Value) : Prop :=
  missingNameOrArgs call ∨ namesUnknownTool call ∨ raisesInsideTool w call

/-! ## Concrete instances used by the witnesses -/

/-- A well-formed tool-call request value. -/
def mkCall (name args : Value) : Value :=
  .dict [(.str "function", .dict [(.str "name", name), (.str "arguments", args)])]

/-- A concrete world: empty file system, fresh execution environment, and
benign external providers. -/
def w0 : World where
  files := []
  execEnv := []
  search := fun _ => .ok "resultados"
  wiki := fun _ => .ok "resumen"
  parseCode := fun _ => []

/-- A concrete world whose search provider raises. -/
def wDown : World :=
  { w0 with search := fun _ => .error "HTTPError: 503" }

/-- A request naming an unregistered tool. -/
def callUnknown : Value := mkCall (.str "frobnicate") (.dict [])

/-- A request whose `function` record lacks `arguments`. -/
def callMalformed : Value :=
  .dict [(.str "function", .dict [(.str "name", .str "search_web")])]

/-- The argument dictionary of a well-formed `search_web` request. -/
def goodEntries : List (Value × Value) :=
  [(.str "function", .dict [(.str "name", .str "search_web"),
                            (.str "arguments", .dict [(.str "query", .str "hola")])])]

/-- A well-formed `search_web` request. -/
def callGood : Value := .dict goodEntries

/-- A `search_web` request missing its required `query` argument. -/
def callMissingArg : Value := mkCall (.str "search_web") (.dict [])

/-- A request whose `function` value is a dictionary but whose `name`
value is an (unhashable) list. -/
def callBadName : Value := mkCall (.list []) (.dict [])

/-- The message history as the tool-dispatch loop leaves it, whether it
completed or an exception stopped it. -/
def dispatchedMessages :
    Except (World × List Message × PyErr) (World × List Message) → List Message
  | .ok (_, m) => m
  | .error (_, m, _) => m

/-! # Helper lemmas -/

theorem string_append_assoc (a b c : String) : a ++ b ++ c = a ++ (b ++ c) := by
  rcases a with ⟨A⟩; rcases b with ⟨B⟩; rcases c with ⟨C⟩
  show String.mk (A ++ B ++ C) = String.mk (A ++ (B ++ C))
  rw [List.append_assoc]

theorem envGet_envSet (env : ExecEnv) (x : String) (v : Value) :
    envGet (envSet env x v) x = some v := by
  induction env with
  | nil => simp [envSet, envGet]
  | cons p rest ih =>
    rcases p with ⟨y, w⟩
    by_cases hy : y = x
    · simp [envSet, envGet, hy]
    · simp [envSet, envGet, hy, ih]

theorem envSet_ne_nil (env : ExecEnv) (x : String) (v : Value) :
    envSet env x v ≠ [] := by
  cases env with
  | nil => simp [envSet]
  | cons p rest =>
    rcases p with ⟨y, w⟩
    by_cases hy : y = x <;> simp [envSet, hy]

theorem ensure_of_ne_nil (env : ExecEnv) (h : env ≠ []) : _ensure_exec_env env = env := by
  cases env with
  | nil => exact absurd rfl h
  | cons p rest => simp [_ensure_exec_env]

theorem execute_of_keyError (w : World) (call k : Value)
    (h : getNameArgs call = .error (.keyError k)) :
    execute_tool_call w call = ⟨.ok malformedCallMsg, w, Option.none⟩ := by
  unfold execute_tool_call
  simp only [h]

theorem execute_of_unknown (w : World) (call n a : Value)
    (h : getNameArgs call = .ok (n, a)) (h2 : toolFuncsGet n = .ok Option.none) :
    execute_tool_call w call = ⟨.ok (noImplMsg n), w, Option.none⟩ := by
  unfold execute_tool_call
  simp only [h, h2]

theorem execute_of_bindError (w : World) (call n a : Value) (t : ToolName) (m : String)
    (h : getNameArgs call = .ok (n, a)) (h2 : toolFuncsGet n = .ok (some t))
    (h3 : bindKwargs (toolParams t) a = .error m) :
    execute_tool_call w call = ⟨.ok (toolErrMsg n m), w, Option.none⟩ := by
  unfold execute_tool_call
  simp only [h, h2, h3]

theorem execute_of_bodyError (w : World) (call n a : Value) (t : ToolName)
    (bound : List (String × Value)) (m : String)
    (h : getNameArgs call = .ok (n, a)) (h2 : toolFuncsGet n = .ok (some t))
    (h3 : bindKwargs (toolParams t) a = .ok bound)
    (h4 : (runToolBody w t bound).1 = .error m) :
    execute_tool_call w call = ⟨.ok (toolErrMsg n m), (runToolBody w t bound).2, some t⟩ := by
  unfold execute_tool_call
  simp only [h, h2, h3]
  rcases hrb : runToolBody w t bound with ⟨r, w'⟩
  rw [hrb] at h4
  replace h4 : r = Except.error m := h4
  subst h4
  simp only [hrb]

theorem execute_of_bodyOk (w : World) (call n a : Value) (t : ToolName)
    (bound : List (String × Value)) (s : String)
    (h : getNameArgs call = .ok (n, a)) (h2 : toolFuncsGet n = .ok (some t))
    (h3 : bindKwargs (toolParams t) a = .ok bound)
    (h4 : (runToolBody w t bound).1 = .ok s) :
    execute_tool_call w call = ⟨.ok s, (runToolBody w t bound).2, some t⟩ := by
  unfold execute_tool_call
  simp only [h, h2, h3]
  rcases hrb : runToolBody w t bound with ⟨r, w'⟩
  rw [hrb] at h4
  replace h4 : r = Except.ok s := h4
  subst h4
  simp only [hrb]

theorem except_bind_ok {α β γ : Type} (a : α) (f : α → Except γ β) :
    (Except.ok a >>= f) = f a := rfl

theorem except_bind_error {α β γ : Type} (e : γ) (f : α → Except γ β) :
    ((Except.error e : Except γ α) >>= f) = .error e := rfl

theorem getNameArgs_of_missing (call : Value) (h : missingNameOrArgs call) :
    ∃ k, getNameArgs call = .error (.keyError k) := by
  obtain ⟨d, rfl, hd⟩ := h
  rcases hd with hd | ⟨f, hf, hd⟩
  · exact ⟨.str "function", by
      simp [getNameArgs, subscript, Value.hashable, hd, except_bind_ok, except_bind_error]⟩
  · rcases hd with hd | hd
    · exact ⟨.str "name", by
        simp [getNameArgs, subscript, Value.hashable, hf, hd, except_bind_ok, except_bind_error]⟩
    · cases hn : dictLookup f (.str "name") with
      | none => exact ⟨.str "name", by
          simp [getNameArgs, subscript, Value.hashable, hf, hn, except_bind_ok, except_bind_error]⟩
      | some nv => exact ⟨.str "arguments", by
          simp [getNameArgs, subscript, Value.hashable, hf, hn, hd, except_bind_ok,
                except_bind_error]⟩

theorem getNameArgs_of_wf (d f : List (Value × Value)) (nv av : Value)
    (hf : dictLookup d (.str "function") = some (.dict f))
    (hn : dictLookup f (.str "name") = some nv)
    (ha : dictLookup f (.str "arguments") = some av) :
    getNameArgs (.dict d) = .ok (nv, av) := by
  simp [getNameArgs, subscript, Value.hashable, hf, hn, ha, except_bind_ok]

theorem toolFuncsGet_none_of (s : String) (hs : ∀ p ∈ TOOL_FUNCS, p.1 ≠ s) :
    toolFuncsGet (.str s) = .ok Option.none := by
  unfold toolFuncsGet
  rw [if_pos (show (Value.str s).hashable = true from rfl)]
  have hfind : List.find? (fun p => Value.str p.1 == Value.str s) TOOL_FUNCS = Option.none := by
    apply List.find?_eq_none.mpr
    intro x hx hbeq
    exact hs x hx (eq_of_beq (show (x.1 == s) = true from hbeq))
  rw [hfind]
  rfl

theorem toolFuncsGet_mem_of_some (s : String) (t : ToolName)
    (h : toolFuncsGet (.str s) = .ok (some t)) : (s, t) ∈ TOOL_FUNCS := by
  unfold toolFuncsGet at h
  rw [if_pos (show (Value.str s).hashable = true from rfl)] at h
  injection h with h
  rcases Option.map_eq_some'.mp h with ⟨p, hfind, hp2⟩
  have hmem := List.mem_of_find?_eq_some hfind
  have hbeq := List.find?_some hfind
  have hps : p.1 = s := eq_of_beq (by exact hbeq)
  have : p = (s, t) := by
    rcases p with ⟨p1, p2⟩
    simp only at hps hp2
    rw [hps, hp2]
  rwa [this] at hmem

theorem bindParams_error_of_missing (d : List (Value × Value))
    (params : List (String × Option Value)) (n : String)
    (hmem : (n, (Option.none : Option Value)) ∈ params)
    (hmiss : dictLookup d (.str n) = Option.none) :
    ∃ m, bindParams d params = .error m := by
  induction params with
  | nil => cases hmem
  | cons p rest ih =>
    rcases p with ⟨n', dflt⟩
    rcases List.mem_cons.mp hmem with heq | htail
    · have hn : n' = n := (Prod.mk.injEq _ _ _ _ ▸ heq).1.symm
      have hd : dflt = Option.none := (Prod.mk.injEq _ _ _ _ ▸ heq).2.symm
      subst hn; subst hd
      exact ⟨"missing 1 required positional argument: \x27" ++ n' ++ "\x27",
        by simp [bindParams, hmiss]⟩
    · cases hl : dictLookup d (.str n') with
      | some v =>
        obtain ⟨m, hm⟩ := ih htail
        exact ⟨m, by simp [bindParams, hl, hm, Except.map]⟩
      | none =>
        cases dflt with
        | some v =>
          obtain ⟨m, hm⟩ := ih htail
          exact ⟨m, by simp [bindParams, hl, hm, Except.map]⟩
        | none =>
          exact ⟨"missing 1 required positional argument: \x27" ++ n' ++ "\x27",
            by simp [bindParams, hl]⟩

theorem bindKwargs_error_of_missing (params : List (String × Option Value))
    (d : List (Value × Value)) (n : String)
    (hmem : (n, (Option.none : Option Value)) ∈ params)
    (hmiss : dictLookup d (.str n) = Option.none) :
    ∃ m, bindKwargs params (.dict d) = .error m := by
  unfold bindKwargs
  cases h1 : d.all (fun p => match p.1 with | .str _ => true | _ => false) with
  | false => exact ⟨"keywords must be strings", by simp [h1]⟩
  | true =>
    cases h2 : d.all (fun p => params.any (fun q => Value.str q.1 == p.1)) with
    | false => exact ⟨"got an unexpected keyword argument", by simp [h1, h2]⟩
    | true =>
      obtain ⟨m, hm⟩ := bindParams_error_of_missing d params n hmem hmiss
      exact ⟨m, by simp [h1, h2, hm]⟩

theorem dispatchAll_extends (cs : List Value) :
    ∀ (w : World) (msgs : List Message),
      ∃ t, dispatchedMessages (dispatchAll w msgs cs) = msgs ++ t := by
  induction cs with
  | nil => exact fun w msgs => ⟨[], by simp [dispatchAll, dispatchedMessages]⟩
  | cons c cs ih =>
    intro w msgs
    cases hr : (execute_tool_call w c).result with
    | ok s =>
      obtain ⟨t, ht⟩ := ih (execute_tool_call w c).world (msgs ++ [toolMessage s])
      exact ⟨toolMessage s :: t, by
        simp only [dispatchAll, hr, ht, List.append_assoc, List.singleton_append]⟩
    | error e => exact ⟨[], by simp [dispatchAll, hr, dispatchedMessages]⟩

theorem runTurn_extends (script : List ModelResponse) :
    ∀ (w : World) (msgs : List Message),
      ∃ t, (runTurn w msgs script).messages = msgs ++ t := by
  induction script with
  | nil => exact fun w msgs => ⟨[], by simp [runTurn]⟩
  | cons r rest ih =>
    intro w msgs
    rcases r with ⟨content, calls⟩
    cases calls with
    | nil =>
      by_cases hc : content = ""
      · exact ⟨[], by simp [runTurn, hc]⟩
      · exact ⟨[assistantMessage content], by simp [runTurn, hc]⟩
    | cons c cs =>
      cases hd : dispatchAll w msgs (c :: cs) with
      | ok p =>
        rcases p with ⟨w', msgs'⟩
        have h1 : ∃ t, msgs' = msgs ++ t := by
          have := dispatchAll_extends (c :: cs) w msgs
          rwa [hd] at this
        obtain ⟨t1, ht1⟩ := h1
        subst ht1
        obtain ⟨t2, ht2⟩ := ih w' (msgs ++ t1)
        exact ⟨t1 ++ t2, by
          simp only [runTurn, hd, ht2, List.append_assoc]⟩
      | error p =>
        rcases p with ⟨w', msgs', e⟩
        have h1 : ∃ t, msgs' = msgs ++ t := by
          have := dispatchAll_extends (c :: cs) w msgs
          rwa [hd] at this
        obtain ⟨t1, ht1⟩ := h1
        exact ⟨t1, by simp only [runTurn, hd, ht1]⟩

theorem runSession_extends (turns : List Turn) :
    ∀ (w : World) (msgs : List Message),
      ∃ t, (runSession w msgs turns).2 = msgs ++ t := by
  induction turns with
  | nil => exact fun w msgs => ⟨[], by simp [runSession]⟩
  | cons tn rest ih =>
    intro w msgs
    by_cases hq : tn.input.trim = "" ∨ tn.input.trim.toLower = "quit" ∨ tn.input.trim.toLower = "exit"
    · exact ⟨[], by simp [runSession, hq]⟩
    · obtain ⟨t1, ht1⟩ := runTurn_extends tn.script w (msgs ++ [userMessage tn.input.trim])
      rcases hr : runTurn w (msgs ++ [userMessage tn.input.trim]) tn.script with ⟨w', msgs', pr, n, oc⟩
      have hm : msgs' = msgs ++ (userMessage tn.input.trim :: t1) := by
        have := ht1
        rw [hr] at this
        simpa [List.append_assoc] using this
      subst hm
      cases oc with
      | answered a =>
        obtain ⟨t2, ht2⟩ := ih w' (msgs ++ userMessage tn.input.trim :: t1)
        exact ⟨userMessage tn.input.trim :: t1 ++ t2, by
          simp only [runSession, hq, if_false, hr, ht2, List.append_assoc,
                     List.cons_append, List.nil_append]⟩
      | noAnswer =>
        obtain ⟨t2, ht2⟩ := ih w' (msgs ++ userMessage tn.input.trim :: t1)
        exact ⟨userMessage tn.input.trim :: t1 ++ t2, by
          simp only [runSession, hq, if_false, hr, ht2, List.append_assoc,
                     List.cons_append, List.nil_append]⟩
      | aborted e =>
        exact ⟨userMessage tn.input.trim :: t1, by simp only [runSession, hq, if_false, hr]⟩
      | noResponse =>
        exact ⟨userMessage tn.input.trim :: t1, by simp only [runSession, hq, if_false, hr]⟩

theorem malformedCallMsg_split :
    malformedCallMsg = "[ERROR" ++ "] tool_call mal formada: falta \x27name\x27 o \x27arguments\x27." := by
  decide

theorem noImplMsg_split (name : Value) :
    noImplMsg name =
      "[ERROR" ++ ("] No hay implementación para la herramienta \x27" ++ (name.pyStr ++ "\x27.")) := by
  unfold noImplMsg
  rw [← string_append_assoc, ← string_append_assoc]
  rfl

theorem toolErrMsg_split (name : Value) (e : String) :
    toolErrMsg name e =
      "[ERROR" ++ (" ejecutando " ++ (name.pyStr ++ ("] " ++ (e ++ ("\n" ++ tracebackText))))) := by
  unfold toolErrMsg
  rw [← string_append_assoc, ← string_append_assoc, ← string_append_assoc,
      ← string_append_assoc, ← string_append_assoc]
  rfl

theorem fileAppend_ensure_lookup (fs : Files) (fn d : String) :
    fileLookup (fileAppend (ensureFile fs fn) fn d) fn =
      some ((fileLookup fs fn).getD "" ++ d) := by
  induction fs with
  | nil => simp [ensureFile, fileAppend, fileLookup, String.empty_append]
  | cons p rest ih =>
    rcases p with ⟨n, c⟩
    by_cases hn : n = fn
    · subst hn
      simp [ensureFile, fileAppend, fileLookup]
    · simp [ensureFile, fileAppend, fileLookup, hn, ih]

/-! # Claim theorems -/

/-- C9: a model response with empty text content and no tool-call requests
appends no assistant message to the history and prints the no-answer
indicator for the user; the turn ends after that single model call. -/
theorem empty_answer_not_appended (w : World) (msgs : List Message)
    (rest : List ModelResponse) :
    runTurn w msgs ({ content := "", tool_calls := [] } :: rest) =
      ⟨w, msgs, ["(sin respuesta del modelo)"], 1, .noAnswer⟩ := by
  simp [runTurn]

/-- C6: the history starts as the singleton system-prompt message, every
session only ever appends to whatever history it is given — no message is
removed or reordered — and hence the first message of the history left by
any session is the system prompt. -/
theorem history_append_only :
    initialMessages = [systemMessage] ∧
    (∀ (w : World) (msgs : List Message) (turns : List Turn),
      ∃ tail, (runSession w msgs turns).2 = msgs ++ tail) ∧
    (∀ (w : World) (turns : List Turn),
      ((runSession w initialMessages turns).2).head? = some systemMessage) := by
  refine ⟨rfl, fun w msgs turns => runSession_extends turns w msgs, fun w turns => ?_⟩
  obtain ⟨tail, h⟩ := runSession_extends turns w initialMessages
  rw [h]
  rfl

/-- C7: the code-execution environment persists across `code_exec` calls —
a variable assigned by one call is printed back by a later call, a call
that raises leaves the environment intact, and a call after the raise
still succeeds and still sees the variable. -/
theorem exec_env_persistence (env0 : ExecEnv) (x : String) (v : Value) (m : String) :
    let r1 := code_exec [.assign x (.lit v)] env0
    let r2 := code_exec [.printE (.var x)] r1.2
    let r3 := code_exec [.raiseExc m] r2.2
    let r4 := code_exec [.printE (.var x)] r3.2
    r2.1 = v.pyStr ++ "\n" ∧
    r3.1 = "Error: " ++ m ++ "\n" ++ tracebackText ++ "\n" ∧
    r4.1 = v.pyStr ++ "\n" := by
  dsimp only
  have h1 : code_exec [Stmt.assign x (Expr.lit v)] env0 =
      ("", envSet (_ensure_exec_env env0) x v) := rfl
  have hne : envSet (_ensure_exec_env env0) x v ≠ [] := envSet_ne_nil _ _ _
  have hens : _ensure_exec_env (envSet (_ensure_exec_env env0) x v) =
      envSet (_ensure_exec_env env0) x v := ensure_of_ne_nil _ hne
  have hget : envGet (envSet (_ensure_exec_env env0) x v) x = some v := envGet_envSet _ _ _
  have h2 : code_exec [Stmt.printE (Expr.var x)] (envSet (_ensure_exec_env env0) x v) =
      (v.pyStr ++ "\n", envSet (_ensure_exec_env env0) x v) := by
    unfold code_exec
    rw [hens]
    simp [runStmts, evalExpr, hget, String.empty_append]
  have h3 : code_exec [Stmt.raiseExc m] (envSet (_ensure_exec_env env0) x v) =
      ("Error: " ++ m ++ "\n" ++ tracebackText ++ "\n", envSet (_ensure_exec_env env0) x v) := by
    unfold code_exec
    rw [hens]
    simp [runStmts, String.empty_append]
  simp [h1, h2, h3]

/-- C8: `save_text_to_file` returns a confirmation naming the file, creates
the file when absent, appends (never overwrites) when present, and two
calls on the same file leave both contents concatenated in call order. -/
theorem save_append_semantics (fs : Files) (fn c1 c2 : String) (hneq : c1 ≠ c2) :
    (∃ pre post, (save_text_to_file fs c1 fn).2 = pre ++ fn ++ post) ∧
    (save_text_to_file fs c1 fn).2 = "Data successfully saved to " ++ fn ∧
    (fileLookup fs fn = Option.none →
      fileLookup (save_text_to_file fs c1 fn).1 fn = some c1) ∧
    (∀ old, fileLookup fs fn = some old →
      fileLookup (save_text_to_file fs c1 fn).1 fn = some (old ++ c1)) ∧
    fileLookup (save_text_to_file (save_text_to_file fs c1 fn).1 c2 fn).1 fn
      = some ((fileLookup fs fn).getD "" ++ c1 ++ c2) := by
  refine ⟨⟨"Data successfully saved to ", "", by rw [String.append_empty]; rfl⟩, rfl, ?_, ?_, ?_⟩
  · intro h0
    have := fileAppend_ensure_lookup fs fn c1
    rw [h0] at this
    simpa [String.empty_append] using this
  · intro old hold
    have := fileAppend_ensure_lookup fs fn c1
    rw [hold] at this
    simpa using this
  · have hfirst := fileAppend_ensure_lookup fs fn c1
    have hsecond := fileAppend_ensure_lookup (save_text_to_file fs c1 fn).1 fn c2
    show fileLookup (fileAppend (ensureFile (save_text_to_file fs c1 fn).1 fn) fn c2) fn = _
    rw [hsecond]
    show some ((fileLookup (fileAppend (ensureFile fs fn) fn c1) fn).getD "" ++ c2) = _
    rw [hfirst]
    rfl

/-- C2: a tool-call request lacking `name` or `arguments` (or the whole
`function` record) makes `execute_tool_call` return the fixed
malformed-call string; no exception escapes and no tool is dispatched. -/
theorem malformed_call_fixed_string (w : World) (call : Value)
    (h : missingNameOrArgs call) :
    execute_tool_call w call = ⟨.ok malformedCallMsg, w, Option.none⟩ := by
  obtain ⟨k, hk⟩ := getNameArgs_of_missing call h
  exact execute_of_keyError w call k hk

/-- C2 witness: the concrete request lacking `arguments` yields exactly the
malformed-call string. -/
theorem malformed_call_fixed_string_witness :
    missingNameOrArgs callMalformed ∧
    execute_tool_call w0 callMalformed = ⟨.ok malformedCallMsg, w0, Option.none⟩ := by
  have hm : missingNameOrArgs callMalformed :=
    ⟨[(.str "function", .dict [(.str "name", .str "search_web")])], rfl,
     Or.inr ⟨[(.str "name", .str "search_web")], rfl, Or.inr rfl⟩⟩
  exact ⟨hm, malformed_call_fixed_string w0 callMalformed hm⟩

/-- C3: every registered tool name resolves to a callable in the registry,
and a request naming a tool absent from the registry gets the fixed
no-implementation string back without any exception. -/
theorem registry_lookup_total :
    (∀ p ∈ TOOL_FUNCS, ∃ t, toolFuncsGet (.str p.1) = .ok (some t)) ∧
    (∀ (w : World) (call a : Value) (s : String),
      getNameArgs call = .ok (.str s, a) →
      (∀ p ∈ TOOL_FUNCS, p.1 ≠ s) →
      execute_tool_call w call = ⟨.ok (noImplMsg (.str s)), w, Option.none⟩) := by
  constructor
  · intro p hp
    simp only [TOOL_FUNCS, List.mem_cons, List.not_mem_nil, or_false] at hp
    rcases hp with rfl | rfl | rfl | rfl | rfl <;> exact ⟨_, rfl⟩
  · intro w call a s h hs
    exact execute_of_unknown w call (.str s) a h (toolFuncsGet_none_of s hs)

/-- C3 witness: `search_web` resolves, and the concrete unknown-tool
request gets the no-implementation string. -/
theorem registry_lookup_total_witness :
    (∃ t, toolFuncsGet (.str "search_web") = .ok (some t)) ∧
    execute_tool_call w0 callUnknown =
      ⟨.ok (noImplMsg (.str "frobnicate")), w0, Option.none⟩ := by
  constructor
  · exact registry_lookup_total.1 ("search_web", .search_web) (by decide)
  · exact registry_lookup_total.2 w0 callUnknown (.dict []) "frobnicate" rfl (by decide)

/-- C8 witness: saving "a" then "b" to the default file name on an empty
file system leaves the file containing "ab". -/
theorem save_append_semantics_witness :
    fileLookup (save_text_to_file (save_text_to_file [] "a" "research_output.txt").1
        "b" "research_output.txt").1 "research_output.txt" = some "ab" := by
  have h := save_append_semantics [] "research_output.txt" "a" "b" (by decide)
  have h5 := h.2.2.2.2
  have e : ((fileLookup ([] : Files) "research_output.txt").getD "" ++ "a" ++ "b") = "ab" := by
    decide
  rw [e] at h5
  exact h5

/-- C1: for the three kinds of tool dispatch failure — malformed call,
unknown tool name, exception raised inside the tool body —
`execute_tool_call` returns an error-describing string (prefixed
"[ERROR"), the loop appends it as an ordinary tool-role message, and the
turn continues with the next model call instead of terminating. -/
theorem dispatch_failure_recovered (w : World) (call : Value)
    (h : dispatchFails w call) :
    ∃ s, (execute_tool_call w call).result = .ok s ∧ (∃ r, s = "[ERROR" ++ r) ∧
      ∀ (msgs : List Message) (content : String) (rest : List ModelResponse),
        runTurn w msgs (⟨content, [call]⟩ :: rest) =
          ⟨(runTurn (execute_tool_call w call).world (msgs ++ [toolMessage s]) rest).world,
           (runTurn (execute_tool_call w call).world (msgs ++ [toolMessage s]) rest).messages,
           (runTurn (execute_tool_call w call).world (msgs ++ [toolMessage s]) rest).printed,
           (runTurn (execute_tool_call w call).world (msgs ++ [toolMessage s]) rest).modelCalls + 1,
           (runTurn (execute_tool_call w call).world (msgs ++ [toolMessage s]) rest).outcome⟩ := by
  have main : ∀ s, (execute_tool_call w call).result = .ok s →
      ∀ (msgs : List Message) (content : String) (rest : List ModelResponse),
        runTurn w msgs (⟨content, [call]⟩ :: rest) =
          ⟨(runTurn (execute_tool_call w call).world (msgs ++ [toolMessage s]) rest).world,
           (runTurn (execute_tool_call w call).world (msgs ++ [toolMessage s]) rest).messages,
           (runTurn (execute_tool_call w call).world (msgs ++ [toolMessage s]) rest).printed,
           (runTurn (execute_tool_call w call).world (msgs ++ [toolMessage s]) rest).modelCalls + 1,
           (runTurn (execute_tool_call w call).world (msgs ++ [toolMessage s]) rest).outcome⟩ := by
    intro s hs msgs content rest
    have hd : dispatchAll w msgs [call] =
        .ok ((execute_tool_call w call).world, msgs ++ [toolMessage s]) := by
      simp [dispatchAll, hs]
    simp only [runTurn, hd]
  rcases h with h | h | h
  · obtain ⟨k, hk⟩ := getNameArgs_of_missing call h
    have he := execute_of_keyError w call k hk
    refine ⟨malformedCallMsg, by rw [he], ⟨_, malformedCallMsg_split⟩, ?_⟩
    exact main malformedCallMsg (by rw [he])
  · obtain ⟨n, a, hna, hn⟩ := h
    have he := execute_of_unknown w call n a hna hn
    refine ⟨noImplMsg n, by rw [he], ⟨_, noImplMsg_split n⟩, ?_⟩
    exact main (noImplMsg n) (by rw [he])
  · obtain ⟨n, a, t, bound, m, hna, hn, hb, hbody⟩ := h
    have he := execute_of_bodyError w call n a t bound m hna hn hb hbody
    refine ⟨toolErrMsg n m, by rw [he], ⟨_, toolErrMsg_split n m⟩, ?_⟩
    exact main (toolErrMsg n m) (by rw [he])

/-- C1 witness: the concrete unknown-tool request is recovered as an
"[ERROR"-prefixed tool result. -/
theorem dispatch_failure_recovered_witness :
    ∃ s, (execute_tool_call w0 callUnknown).result = .ok s ∧
      (∃ r, s = "[ERROR" ++ r) := by
  obtain ⟨s, h1, h2, _⟩ :=
    dispatch_failure_recovered w0 callUnknown
      (Or.inr (Or.inl ⟨.str "frobnicate", .dict [], rfl, rfl⟩))
  exact ⟨s, h1, h2⟩

/-- C4: a tool-call request naming an unregistered tool is not dispatched;
a request naming a registered tool but missing an argument the tool's
schema marks required is likewise never dispatched to the tool body, and
the caught binding failure comes back as an ordinary result string. -/
theorem required_args_validated :
    (∀ (w : World) (call n a : Value),
      getNameArgs call = .ok (n, a) → toolFuncsGet n = .ok Option.none →
      (execute_tool_call w call).invoked = Option.none) ∧
    (∀ (w : World) (call : Value) (s : String) (adict : List (Value × Value)) (t : ToolName),
      getNameArgs call = .ok (.str s, .dict adict) →
      toolFuncsGet (.str s) = .ok (some t) →
      (∃ r ∈ specRequired s, dictLookup adict (.str r) = Option.none) →
      (execute_tool_call w call).invoked = Option.none ∧
        ∃ m, (execute_tool_call w call).result = .ok m) := by
  constructor
  · intro w call n a h hn
    rw [execute_of_unknown w call n a h hn]
  · intro w call s adict t h ht hmiss
    obtain ⟨r, hrmem, hrnone⟩ := hmiss
    have hmem := toolFuncsGet_mem_of_some s t ht
    simp only [TOOL_FUNCS, List.mem_cons, List.not_mem_nil, or_false, Prod.mk.injEq] at hmem
    have hpar : (r, (Option.none : Option Value)) ∈ toolParams t := by
      rcases hmem with ⟨rfl, rfl⟩ | ⟨rfl, rfl⟩ | ⟨rfl, rfl⟩ | ⟨rfl, rfl⟩ | ⟨rfl, rfl⟩
      · have hr : r ∈ ["query"] := hrmem
        rw [List.mem_singleton.mp hr]
        simp [toolParams]
      · have hr : r ∈ ["query"] := hrmem
        rw [List.mem_singleton.mp hr]
        simp [toolParams]
      · have hr : r ∈ ["query"] := hrmem
        rw [List.mem_singleton.mp hr]
        simp [toolParams]
      · have hr : r ∈ ["data"] := hrmem
        rw [List.mem_singleton.mp hr]
        simp [toolParams]
      · have hr : r ∈ ["code"] := hrmem
        rw [List.mem_singleton.mp hr]
        simp [toolParams]
    obtain ⟨m, hb⟩ := bindKwargs_error_of_missing (toolParams t) adict r hpar hrnone
    have he := execute_of_bindError w call (.str s) (.dict adict) t m h ht hb
    rw [he]
    exact ⟨rfl, toolErrMsg (.str s) m, rfl⟩

/-- C4 witness: the unknown-tool request and the `search_web` request
missing `query` are both left undispatched. -/
theorem required_args_validated_witness :
    (execute_tool_call w0 callUnknown).invoked = Option.none ∧
    (execute_tool_call w0 callMissingArg).invoked = Option.none ∧
    ∃ m, (execute_tool_call w0 callMissingArg).result = .ok m := by
  refine ⟨?_, ?_⟩
  · exact required_args_validated.1 w0 callUnknown (.str "frobnicate") (.dict []) rfl rfl
  · exact required_args_validated.2 w0 callMissingArg "search_web" [] .search_web rfl rfl
      ⟨"query", by decide, rfl⟩

/-- C5: a model response carrying two tool-call requests dispatches both in
order, appends the two tool messages in that order, and then makes exactly
one follow-up model call, which here answers the turn. -/
theorem two_tool_calls_in_order (w : World) (msgs : List Message)
    (content final : String) (c1 c2 : Value) (s1 s2 : String)
    (rest : List ModelResponse)
    (h1 : (execute_tool_call w c1).result = .ok s1)
    (h2 : (execute_tool_call (execute_tool_call w c1).world c2).result = .ok s2)
    (hf : final ≠ "") :
    runTurn w msgs (⟨content, [c1, c2]⟩ :: ⟨final, []⟩ :: rest) =
      ⟨(execute_tool_call (execute_tool_call w c1).world c2).world,
       msgs ++ [toolMessage s1, toolMessage s2, assistantMessage final],
       [final], 2, .answered final⟩ := by
  have hd : dispatchAll w msgs [c1, c2] =
      .ok ((execute_tool_call (execute_tool_call w c1).world c2).world,
           msgs ++ [toolMessage s1, toolMessage s2]) := by
    simp [dispatchAll, h1, h2]
  simp only [runTurn, hd]
  simp [hf]

/-- C5 witness: two concrete `search_web` calls in one response, then a
final answer, produce exactly two model calls and the two tool messages in
order. -/
theorem two_tool_calls_in_order_witness :
    runTurn w0 [] [⟨"hola", [callGood, callGood]⟩, ⟨"listo", []⟩] =
      ⟨(execute_tool_call (execute_tool_call w0 callGood).world callGood).world,
       [toolMessage "resultados", toolMessage "resultados", assistantMessage "listo"],
       ["listo"], 2, .answered "listo"⟩ :=
  two_tool_calls_in_order w0 [] "hola" "listo" callGood callGood
    "resultados" "resultados" [] rfl rfl (by decide)

/-- C10 counterexample: a request whose `function` value is a dictionary
(the claimed precondition) but whose `name` value is a list still makes
`execute_tool_call` raise — the `TypeError` from the unhashable registry
key escapes both guards. -/
theorem fn_dict_not_sufficient_cx :
    (∀ v, dictLookup [(.str "function",
        .dict [(.str "name", .list []), (.str "arguments", .dict [])])]
        (.str "function") = some v → ∃ f, v = .dict f) ∧
    (execute_tool_call w0 callBadName).result =
      .error (.typeError ("unhashable type: \x27list\x27")) := by
  constructor
  · intro v hv
    have h0 : dictLookup [(Value.str "function",
        Value.dict [(.str "name", .list []), (.str "arguments", .dict [])])]
        (.str "function") =
        some (.dict [(.str "name", .list []), (.str "arguments", .dict [])]) := rfl
    rw [h0] at hv
    injection hv with hv
    exact ⟨_, hv.symm⟩
  · rfl

/-- C10 amended: for a tool-call request dictionary whose `function` value,
when present, is a dictionary AND whose `name` value, when present, is
hashable (in practice a string), `execute_tool_call` returns a string and
raises no exception. -/
theorem hashable_name_precondition (w : World) (d : List (Value × Value))
    (hfn : ∀ v, dictLookup d (.str "function") = some v → ∃ f, v = .dict f)
    (hname : ∀ f nv, dictLookup d (.str "function") = some (.dict f) →
      dictLookup f (.str "name") = some nv → nv.hashable = true) :
    ∃ s, (execute_tool_call w (.dict d)).result = .ok s := by
  cases hf : dictLookup d (.str "function") with
  | none =>
    have hk : getNameArgs (.dict d) = .error (.keyError (.str "function")) := by
      simp [getNameArgs, subscript, Value.hashable, hf, except_bind_error, except_bind_ok]
    exact ⟨malformedCallMsg, by rw [execute_of_keyError w _ _ hk]⟩
  | some v =>
    obtain ⟨f, rfl⟩ := hfn v hf
    cases hn : dictLookup f (.str "name") with
    | none =>
      have hk : getNameArgs (.dict d) = .error (.keyError (.str "name")) := by
        simp [getNameArgs, subscript, Value.hashable, hf, hn, except_bind_error, except_bind_ok]
      exact ⟨malformedCallMsg, by rw [execute_of_keyError w _ _ hk]⟩
    | some nv =>
      cases ha : dictLookup f (.str "arguments") with
      | none =>
        have hk : getNameArgs (.dict d) = .error (.keyError (.str "arguments")) := by
          simp [getNameArgs, subscript, Value.hashable, hf, hn, ha, except_bind_error,
                except_bind_ok]
        exact ⟨malformedCallMsg, by rw [execute_of_keyError w _ _ hk]⟩
      | some av =>
        have hok : getNameArgs (.dict d) = .ok (nv, av) := getNameArgs_of_wf d f nv av hf hn ha
        have hh := hname f nv hf hn
        have hg : ∃ o, toolFuncsGet nv = .ok o :=
          ⟨_, by unfold toolFuncsGet; rw [if_pos hh]⟩
        obtain ⟨o, ho⟩ := hg
        cases o with
        | none => exact ⟨noImplMsg nv, by rw [execute_of_unknown w _ nv av hok ho]⟩
        | some t =>
          cases hb : bindKwargs (toolParams t) av with
          | error m =>
            exact ⟨toolErrMsg nv m, by rw [execute_of_bindError w _ nv av t m hok ho hb]⟩
          | ok bound =>
            cases hbody : (runToolBody w t bound).1 with
            | error m =>
              exact ⟨toolErrMsg nv m,
                by rw [execute_of_bodyError w _ nv av t bound m hok ho hb hbody]⟩
            | ok s =>
              exact ⟨s, by rw [execute_of_bodyOk w _ nv av t bound s hok ho hb hbody]⟩

/-- C10 amended witness: the concrete well-formed `search_web` request,
whose `name` is a string, returns a string result. -/
theorem hashable_name_precondition_witness :
    ∃ s, (execute_tool_call w0 (.dict goodEntries)).result = .ok s := by
  apply hashable_name_precondition w0 goodEntries
  · intro v hv
    have h0 : dictLookup goodEntries (.str "function") =
        some (.dict [(.str "name", .str "search_web"),
                     (.str "arguments", .dict [(.str "query", .str "hola")])]) := rfl
    rw [h0] at hv
    injection hv with hv
    exact ⟨_, hv.symm⟩
  · intro f nv hf hn
    have h0 : dictLookup goodEntries (.str "function") =
        some (.dict [(.str "name", .str "search_web"),
                     (.str "arguments", .dict [(.str "query", .str "hola")])]) := rfl
    rw [h0] at hf
    injection hf with hf
    injection hf with hf
    subst hf
    have h1 : dictLookup [(Value.str "name", Value.str "search_web"),
        (.str "arguments", .dict [(.str "query", .str "hola")])] (.str "name") =
        some (.str "search_web") := rfl
    rw [h1] at hn
    injection hn with hn
    subst hn
    rfl

end Agent
